import Mathlib

/-!
Verification of the `streamint` DataDAO deployment toolkit.

This file gives a shallow embedding of the JavaScript/TypeScript sources:

* `scripts/state-manager.js` (`DeploymentStateManager`)
* the `register:datadao` script (`registerDataDAO`,
  `performAutomatedRegistration`, `performManualRegistration`)
* the `deploy:contracts` script (`deployContracts` with its regex-based
  address extraction)
* `scripts/deploy-refiner.js` (`pollEncryptionKey`)
* the UI contribution wizard (`useContributionFlow.ts`)
* `ui/lib/crypto/utils.ts` (`getEncryptionParameters`,
  `encryptWithWalletPublicKey`)

JavaScript objects whose fields may be absent are modelled with `Option`;
JavaScript truthiness of strings ("" is falsy) and numbers (0 is falsy) is
made explicit by the `truthy*` helpers.  External effects (RPC calls,
transaction submission, sleeps, file writes) are recorded in explicit
action traces, and the outcomes of external calls are supplied by
environment records, so that every script becomes a total function of its
inputs and its environment.
-/

/-- JavaScript truthiness of a possibly-absent string field:
`undefined` and `""` are falsy. -/
def truthyS : Option String → Bool
  | none => false
  | some s => s ≠ ""

/-- JavaScript truthiness of a possibly-absent numeric field:
`undefined` and `0` are falsy. -/
def truthyN : Option Nat → Bool
  | none => false
  | some n => n ≠ 0

/-- The `state` sub-object of `deployment.json`: boolean completion flags.
A missing key reads as `undefined`, i.e. `false`, so an empty JS object is
the all-`false` record. -/
structure StateFlags where
  contractsDeployed : Bool := false
  dataDAORegistered : Bool := false
  proofConfigured : Bool := false
  proofGitSetup : Bool := false
  proofPublished : Bool := false
  refinerConfigured : Bool := false
  refinerGitSetup : Bool := false
  refinerPublished : Bool := false
  uiConfigured : Bool := false
  deriving Repr, DecidableEq

/-- An entry of the `errors` map recorded by `recordError`. -/
structure ErrEntry where
  message : String
  timestamp : String
  stack : String
  deriving Repr, DecidableEq

/-- The `contracts` sub-object written by `deployContracts`. -/
structure ContractAddresses where
  tokenAddress : Option String := none
  proxyAddress : Option String := none
  vestingAddress : Option String := none
  deriving Repr, DecidableEq

/-- The `deployment.json` document: a flat, loosely typed record.  Fields
that a given run may not have written yet are `Option`s (`none` models an
absent key). -/
structure Deployment where
  dlpName : Option String := none
  tokenName : Option String := none
  tokenSymbol : Option String := none
  privateKey : Option String := none
  address : Option String := none
  publicKey : Option String := none
  pinataApiKey : Option String := none
  pinataApiSecret : Option String := none
  googleClientId : Option String := none
  googleClientSecret : Option String := none
  tokenAddress : Option String := none
  proxyAddress : Option String := none
  vestingAddress : Option String := none
  dlpAddress : Option String := none
  contracts : Option ContractAddresses := none
  dlpId : Option Nat := none
  refinerId : Option Nat := none
  proofUrl : Option String := none
  proofContractAddress : Option String := none
  refinerContractAddress : Option String := none
  proofRepo : Option String := none
  refinerRepo : Option String := none
  quickMode : Bool := false
  state : Option StateFlags := none
  errors : List (String × ErrEntry) := []
  deriving Repr, DecidableEq

/-- `deployment.state` as the scripts read it after `loadState` has run (or
after `deployment.state = deployment.state || {}`): an absent `state` key
behaves as the all-false flag object. -/
def Deployment.flags (d : Deployment) : StateFlags :=
  d.state.getD {}

/-- JS-object update `obj[k] = v` on an association list: overwrites an
existing key in place (JS key order is insertion order), appends otherwise. -/
def objSet {α : Type} : List (String × α) → String → α → List (String × α)
  | [], k, v => [(k, v)]
  | (k', v') :: rest, k, v =>
    if k' = k then (k, v) :: rest else (k', v') :: objSet rest k v

/-- JS-object read `obj[k]`: `none` models `undefined`. -/
def objGet {α : Type} : List (String × α) → String → Option α
  | [], _ => none
  | (k', v') :: rest, k => if k' = k then some v' else objGet rest k

/-- JS-object `delete obj[k]`. -/
def objDelete {α : Type} : List (String × α) → String → List (String × α)
  | [], _ => []
  | (k', v') :: rest, k =>
    if k' = k then rest else (k', v') :: objDelete rest k

/-! ## `scripts/state-manager.js` — `DeploymentStateManager` -/

/-- The names of the boolean completion flags tracked in `deployment.state`. -/
inductive StepKey
  | contractsDeployed | dataDAORegistered | proofConfigured | proofGitSetup
  | proofPublished | refinerConfigured | refinerGitSetup | refinerPublished
  | uiConfigured
  deriving Repr, DecidableEq

/-- Read the flag named by `k` from a flag object. -/
def StateFlags.get (fl : StateFlags) : StepKey → Bool
  | .contractsDeployed => fl.contractsDeployed
  | .dataDAORegistered => fl.dataDAORegistered
  | .proofConfigured => fl.proofConfigured
  | .proofGitSetup => fl.proofGitSetup
  | .proofPublished => fl.proofPublished
  | .refinerConfigured => fl.refinerConfigured
  | .refinerGitSetup => fl.refinerGitSetup
  | .refinerPublished => fl.refinerPublished
  | .uiConfigured => fl.uiConfigured

/-- Write the flag named by `k`. -/
def StateFlags.set (fl : StateFlags) : StepKey → Bool → StateFlags
  | .contractsDeployed, b => { fl with contractsDeployed := b }
  | .dataDAORegistered, b => { fl with dataDAORegistered := b }
  | .proofConfigured, b => { fl with proofConfigured := b }
  | .proofGitSetup, b => { fl with proofGitSetup := b }
  | .proofPublished, b => { fl with proofPublished := b }
  | .refinerConfigured, b => { fl with refinerConfigured := b }
  | .refinerGitSetup, b => { fl with refinerGitSetup := b }
  | .refinerPublished, b => { fl with refinerPublished := b }
  | .uiConfigured, b => { fl with uiConfigured := b }

/-- The JS spread `{...state, ...updates}` with `updates` given as a list of
flag assignments (later entries win, as in JS). -/
def applyFlagUpdates (fl : StateFlags) : List (StepKey × Bool) → StateFlags
  | [] => fl
  | (k, b) :: rest => applyFlagUpdates (fl.set k b) rest

/-- The on-disk files the state manager touches: `deployment.json` and
`deployment.json.backup`.  File contents are modelled as the parsed
document. -/
structure FileSystem where
  deploymentFile : Option Deployment := none
  backupFile : Option Deployment := none
  deriving Repr, DecidableEq

/-- `saveState`: if `deployment.json` exists its current contents are first
copied to `deployment.json.backup`, then the new state is written. -/
def saveState (cur : Deployment) (fs : FileSystem) : FileSystem :=
  let fs' :=
    match fs.deploymentFile with
    | some old => { fs with backupFile := some old }
    | none => fs
  { fs' with deploymentFile := some cur }

/-- `loadState`: errors if the file is absent; otherwise initialises the
`state` sub-object from the data fields when it is missing (persisting the
result via `saveState`).  The `errors` map is an association list, so the
JS initialisation `deployment.errors = {}` is the identity here. -/
def loadState (fs : FileSystem) : Except String (Deployment × FileSystem) :=
  match fs.deploymentFile with
  | none => .error "deployment.json not found. Run deployment steps in order."
  | some d =>
    if d.state.isNone then
      let fl : StateFlags :=
        { contractsDeployed := truthyS d.tokenAddress && truthyS d.proxyAddress,
          dataDAORegistered := truthyN d.dlpId }
      let d' := { d with state := some fl }
      .ok (d', saveState d' fs)
    else
      .ok (d, fs)

/-- `updateState(updates)`: merge flag updates into `state` and save. -/
def updateState (upd : List (StepKey × Bool)) (d : Deployment) (fs : FileSystem) :
    Deployment × FileSystem :=
  let d' := { d with state := some (applyFlagUpdates d.flags upd) }
  (d', saveState d' fs)

/-- `updateDeployment(updates)`: `Object.assign(this.state, updates)`
followed by a save.  The merge with an arbitrary update object is modelled
by an arbitrary document transformer. -/
def updateDeployment (f : Deployment → Deployment) (d : Deployment) (fs : FileSystem) :
    Deployment × FileSystem :=
  let d' := f d
  (d', saveState d' fs)

/-- `recordError(step, error)`: store message, ISO timestamp and stack under
`errors[step]` and save immediately.  `now` is the ISO timestamp produced by
`new Date().toISOString()`. -/
def recordError (step message stack now : String) (d : Deployment) (fs : FileSystem) :
    Deployment × FileSystem :=
  let d' := { d with errors := objSet d.errors step ⟨message, now, stack⟩ }
  (d', saveState d' fs)

/-- `clearError(step)`: delete `errors[step]` and save, but only when an
entry is present. -/
def clearError (step : String) (d : Deployment) (fs : FileSystem) :
    Deployment × FileSystem :=
  if (objGet d.errors step).isSome then
    let d' := { d with errors := objDelete d.errors step }
    (d', saveState d' fs)
  else
    (d, fs)

/-- `isCompleted(step)`: the explicit flag, or the data fields that prove
completion. -/
def isCompleted (d : Deployment) (step : StepKey) : Bool :=
  if d.flags.get step then true
  else
    match step with
    | .contractsDeployed =>
      (truthyS d.tokenAddress && truthyS d.proxyAddress) ||
      (match d.contracts with
       | some c => truthyS c.tokenAddress && truthyS c.proxyAddress
       | none => false)
    | .dataDAORegistered => truthyN d.dlpId
    | .proofGitSetup => truthyS d.proofRepo
    | .refinerGitSetup => truthyS d.refinerRepo
    | .proofConfigured => truthyS d.proofUrl || truthyS d.proofContractAddress
    | .refinerConfigured => truthyN d.refinerId || truthyS d.refinerContractAddress
    | .uiConfigured => d.flags.get .uiConfigured
    | k => d.flags.get k

/-- `markCompleted(step, data)`: set the flag, then merge extra data when
the `data` object is non-empty (`none` models the empty default). -/
def markCompleted (step : StepKey) (data : Option (Deployment → Deployment))
    (d : Deployment) (fs : FileSystem) : Deployment × FileSystem :=
  let (d1, fs1) := updateState [(step, true)] d fs
  match data with
  | none => (d1, fs1)
  | some f => updateDeployment f d1 fs1

/-- The six flags `syncStateFromData` examines, in source order. -/
def syncChecks : List StepKey :=
  [.contractsDeployed, .dataDAORegistered, .proofGitSetup,
   .refinerGitSetup, .proofConfigured, .refinerConfigured]

/-- The update set `syncStateFromData` accumulates: each checked flag that
is unset but whose data is present contributes `flag: true`. -/
def syncUpdates (d : Deployment) : List (StepKey × Bool) :=
  syncChecks.filterMap fun k =>
    if !d.flags.get k && isCompleted d k then some (k, true) else none

/-- `syncStateFromData`: collect the flags whose data is present but whose
flag is unset, apply them through `updateState` when non-empty, and return
the update set (`none` models the JS `null` result). -/
def syncStateFromData (d : Deployment) (fs : FileSystem) :
    Option (List (StepKey × Bool)) × Deployment × FileSystem :=
  let updates := syncUpdates d
  if updates.isEmpty then (none, d, fs)
  else
    let p := updateState updates d fs
    (some updates, p.1, p.2)

/-- `validateConfiguration`: the informational issue list.  It only reads
the document. -/
def validateConfiguration (d : Deployment) : List String :=
  (if truthyS d.dlpName then [] else ["Missing dlpName"]) ++
  (if truthyS d.tokenName then [] else ["Missing tokenName"]) ++
  (if truthyS d.tokenSymbol then [] else ["Missing tokenSymbol"]) ++
  (if truthyS d.privateKey then [] else ["Missing privateKey"]) ++
  (if truthyS d.address then [] else ["Missing address"]) ++
  (if !truthyS d.pinataApiKey || !truthyS d.pinataApiSecret then
    ["Missing Pinata credentials"] else []) ++
  (if !truthyS d.googleClientId || !truthyS d.googleClientSecret then
    ["Missing Google OAuth credentials"] else []) ++
  (if d.flags.dataDAORegistered && !truthyN d.dlpId then
    ["Marked as registered but missing dlpId"] else []) ++
  (if d.flags.contractsDeployed then
    let hasOldFormat := truthyS d.tokenAddress && truthyS d.proxyAddress
    let hasNewFormat :=
      match d.contracts with
      | some c => truthyS c.tokenAddress && truthyS c.proxyAddress
      | none => false
    if !hasOldFormat && !hasNewFormat then
      ["Marked as deployed but missing contract addresses"] else []
  else [])

/-- `showDetailedErrors(errors)` from the status script: the lines printed
for the recorded errors.  `fmtLocale` stands for
`ts => new Date(ts).toLocaleString()`. -/
def showDetailedErrors (fmtLocale : String → String)
    (errors : List (String × ErrEntry)) : List String :=
  if errors.isEmpty then
    ["No errors recorded - all pending steps are waiting to be executed",
     "Use the commands shown above to continue setup"]
  else
    "Detailed Error Information" ::
    (errors.flatMap fun se =>
      ["❌ " ++ se.1,
       "   Time: " ++ fmtLocale se.2.timestamp,
       "   Error: " ++ se.2.message])

/-! ### Helper lemmas about the JS-object model and flag updates -/

theorem objGet_objSet_self {α : Type} (l : List (String × α)) (k : String) (v : α) :
    objGet (objSet l k v) k = some v := by
  induction l with
  | nil => simp [objSet, objGet]
  | cons hd tl ih =>
    obtain ⟨k', v'⟩ := hd
    by_cases h : k' = k
    · simp [objSet, objGet, h]
    · simp [objSet, objGet, h, ih]

theorem objGet_objSet_ne {α : Type} (l : List (String × α)) (k s : String) (v : α)
    (h : s ≠ k) : objGet (objSet l k v) s = objGet l s := by
  induction l with
  | nil => simp [objSet, objGet, Ne.symm h]
  | cons hd tl ih =>
    obtain ⟨k', v'⟩ := hd
    by_cases h1 : k' = k
    · subst h1
      simp [objSet, objGet, Ne.symm h]
    · by_cases h2 : k' = s <;> simp [objSet, objGet, h1, h2, Ne.symm h, h, ih]

theorem objGet_not_mem_keys {α : Type} (l : List (String × α)) (k : String)
    (h : k ∉ l.map Prod.fst) : objGet l k = none := by
  induction l with
  | nil => rfl
  | cons hd tl ih =>
    obtain ⟨k', v'⟩ := hd
    simp only [List.map_cons, List.mem_cons] at h
    push_neg at h
    simp [objGet, Ne.symm h.1, ih h.2]

theorem objGet_objDelete_self {α : Type} (l : List (String × α)) (k : String)
    (hnd : (l.map Prod.fst).Nodup) : objGet (objDelete l k) k = none := by
  induction l with
  | nil => rfl
  | cons hd tl ih =>
    obtain ⟨k', v'⟩ := hd
    simp only [List.map_cons, List.nodup_cons] at hnd
    by_cases h : k' = k
    · simp only [objDelete, if_pos h]
      exact objGet_not_mem_keys tl k (h ▸ hnd.1)
    · simp [objDelete, objGet, h, ih hnd.2]

theorem objGet_objDelete_ne {α : Type} (l : List (String × α)) (k s : String)
    (h : s ≠ k) : objGet (objDelete l k) s = objGet l s := by
  induction l with
  | nil => rfl
  | cons hd tl ih =>
    obtain ⟨k', v'⟩ := hd
    by_cases h1 : k' = k
    · subst h1
      simp [objDelete, objGet, Ne.symm h]
    · by_cases h2 : k' = s <;> simp [objDelete, objGet, h1, h2, Ne.symm h, h, ih]

theorem StateFlags.get_set (fl : StateFlags) (k s : StepKey) (b : Bool) :
    (fl.set k b).get s = if s = k then b else fl.get s := by
  cases k <;> cases s <;> simp [StateFlags.set, StateFlags.get]

theorem applyFlagUpdates_get_true (upd : List (StepKey × Bool)) (fl : StateFlags)
    (s : StepKey) (hall : ∀ p ∈ upd, p.2 = true) (hs : fl.get s = true) :
    (applyFlagUpdates fl upd).get s = true := by
  induction upd generalizing fl with
  | nil => simpa [applyFlagUpdates] using hs
  | cons hd tl ih =>
    obtain ⟨k, b⟩ := hd
    have hb : b = true := hall (k, b) (by simp)
    show (applyFlagUpdates (fl.set k b) tl).get s = true
    refine ih _ (fun p hp => hall p (List.mem_cons_of_mem _ hp)) ?_
    rw [StateFlags.get_set]
    by_cases h : s = k <;> simp [h, hb, hs]

theorem applyFlagUpdates_get_mem (upd : List (StepKey × Bool)) (fl : StateFlags)
    (k : StepKey) (hall : ∀ p ∈ upd, p.2 = true) (hk : (k, true) ∈ upd) :
    (applyFlagUpdates fl upd).get k = true := by
  induction upd generalizing fl with
  | nil => simp at hk
  | cons hd tl ih =>
    obtain ⟨k', b⟩ := hd
    rcases List.mem_cons.1 hk with heq | hm
    · cases heq
      show (applyFlagUpdates (fl.set k true) tl).get k = true
      exact applyFlagUpdates_get_true tl _ k
        (fun p hp => hall p (List.mem_cons_of_mem _ hp))
        (by rw [StateFlags.get_set]; simp)
    · exact ih _ (fun p hp => hall p (List.mem_cons_of_mem _ hp)) hm

theorem applyFlagUpdates_get_not_mem (upd : List (StepKey × Bool)) (fl : StateFlags)
    (k : StepKey) (hk : k ∉ upd.map Prod.fst) :
    (applyFlagUpdates fl upd).get k = fl.get k := by
  induction upd generalizing fl with
  | nil => rfl
  | cons hd tl ih =>
    obtain ⟨k', b⟩ := hd
    simp only [List.map_cons, List.mem_cons] at hk
    push_neg at hk
    show (applyFlagUpdates (fl.set k' b) tl).get k = fl.get k
    rw [ih _ hk.2, StateFlags.get_set, if_neg hk.1]

/-- The data-only part of `isCompleted` (the `switch` arms that do not read
the flag object). -/
def isCompletedData (d : Deployment) : StepKey → Bool
  | .contractsDeployed =>
    (truthyS d.tokenAddress && truthyS d.proxyAddress) ||
    (match d.contracts with
     | some c => truthyS c.tokenAddress && truthyS c.proxyAddress
     | none => false)
  | .dataDAORegistered => truthyN d.dlpId
  | .proofGitSetup => truthyS d.proofRepo
  | .refinerGitSetup => truthyS d.refinerRepo
  | .proofConfigured => truthyS d.proofUrl || truthyS d.proofContractAddress
  | .refinerConfigured => truthyN d.refinerId || truthyS d.refinerContractAddress
  | _ => false

theorem isCompleted_eq (d : Deployment) (k : StepKey) :
    isCompleted d k = (d.flags.get k || isCompletedData d k) := by
  cases hf : d.flags.get k
  · cases k <;> simp_all [isCompleted, isCompletedData]
  · cases k <;> simp_all [isCompleted]

theorem isCompletedData_updateState (u : List (StepKey × Bool)) (d : Deployment)
    (fs : FileSystem) (k : StepKey) :
    isCompletedData (updateState u d fs).1 k = isCompletedData d k := by
  cases k <;> rfl

theorem flags_updateState (u : List (StepKey × Bool)) (d : Deployment)
    (fs : FileSystem) :
    (updateState u d fs).1.flags = applyFlagUpdates d.flags u := rfl

theorem syncUpdates_all_true (d : Deployment) :
    ∀ p ∈ syncUpdates d, p.2 = true := by
  intro p hp
  simp only [syncUpdates, List.mem_filterMap] at hp
  obtain ⟨k, _, hk⟩ := hp
  by_cases h : (!d.flags.get k && isCompleted d k) = true
  · rw [if_pos h] at hk
    cases hk
    rfl
  · rw [if_neg h] at hk
    cases hk

theorem syncUpdates_keys_cond (d : Deployment) (k : StepKey)
    (h : k ∈ (syncUpdates d).map Prod.fst) :
    (!d.flags.get k && isCompleted d k) = true := by
  simp only [syncUpdates, List.map_filterMap, List.mem_filterMap] at h
  obtain ⟨k', _, hk'⟩ := h
  by_cases hc : (!d.flags.get k' && isCompleted d k') = true
  · rw [if_pos hc] at hk'
    simp only [Option.map_some'] at hk'
    cases hk'
    exact hc
  · rw [if_neg hc] at hk'
    cases hk'

theorem syncUpdates_mem (d : Deployment) (k : StepKey) (hk : k ∈ syncChecks)
    (hc : (!d.flags.get k && isCompleted d k) = true) :
    (k, true) ∈ syncUpdates d := by
  simp only [syncUpdates, List.mem_filterMap]
  exact ⟨k, hk, by rw [if_pos hc]⟩

/-! ### Claim C2 -/

/-- **C2**: the invariant "`dataDAORegistered` implies `dlpId` present" is
checked only informationally.  For every deployment document whose
`state.dataDAORegistered` flag is true while `dlpId` is absent,
`validateConfiguration` returns an issue list containing
'Marked as registered but missing dlpId'; `loadState` accepts and returns
the violating document unchanged, `recordError` and `clearError` leave the
violation in place, and `saveState` persists the violating document
verbatim — no operation rejects or repairs it. -/
theorem c2_registered_without_dlpId_informational
    (d : Deployment) (fs : FileSystem)
    (hreg : d.flags.dataDAORegistered = true) (hid : d.dlpId = none) :
    "Marked as registered but missing dlpId" ∈ validateConfiguration d ∧
    loadState { deploymentFile := some d, backupFile := fs.backupFile } =
      .ok (d, { deploymentFile := some d, backupFile := fs.backupFile }) ∧
    (∀ step m stk now,
      (recordError step m stk now d fs).1.flags.dataDAORegistered = true ∧
      (recordError step m stk now d fs).1.dlpId = none) ∧
    (∀ step,
      (clearError step d fs).1.flags.dataDAORegistered = true ∧
      (clearError step d fs).1.dlpId = none) ∧
    (saveState d fs).deploymentFile = some d := by
  refine ⟨?_, ?_, ?_, ?_, ?_⟩
  · have h8 : "Marked as registered but missing dlpId" ∈
        (if d.flags.dataDAORegistered && !truthyN d.dlpId then
          ["Marked as registered but missing dlpId"] else []) := by
      rw [hreg, hid]
      simp [truthyN]
    simp only [validateConfiguration, List.mem_append]
    tauto
  · have hst : ∃ fl, d.state = some fl := by
      rcases h : d.state with _ | fl
      · exfalso
        rw [Deployment.flags, h] at hreg
        exact absurd hreg (by decide)
      · exact ⟨fl, rfl⟩
    obtain ⟨fl, hfl⟩ := hst
    simp [loadState, hfl]
  · exact fun _ _ _ _ => ⟨hreg, hid⟩
  · intro step
    by_cases hc : (objGet d.errors step).isSome <;>
      simp only [clearError, hc, if_pos, if_neg, Bool.false_eq_true,
        ite_true, ite_false] <;>
      exact ⟨hreg, hid⟩
  · cases h : fs.deploymentFile <;> simp [saveState, h]

/-- Witness for C2 at a concrete violating document. -/
theorem c2_registered_without_dlpId_informational_witness :
    "Marked as registered but missing dlpId" ∈ validateConfiguration
      { state := some { dataDAORegistered := true } } :=
  (c2_registered_without_dlpId_informational
    { state := some { dataDAORegistered := true } } {} rfl rfl).1

/-! ### Claim C7 -/

/-- **C7**: `recordError(step, error)` stores the error's message, the ISO
timestamp and the stack under `errors[step]` and immediately persists the
new document to `deployment.json`, overwriting any previous entry for that
step and leaving other steps' entries unchanged; the status command's
`showDetailedErrors` prints every recorded error keyed by its step name;
`clearError(step)` removes exactly that step's entry. -/
theorem c7_recordError_persists_and_displays
    (d : Deployment) (fs : FileSystem) (step m stk now : String)
    (fmt : String → String)
    (hnd : (d.errors.map Prod.fst).Nodup) :
    objGet (recordError step m stk now d fs).1.errors step =
      some { message := m, timestamp := now, stack := stk } ∧
    (∀ s, s ≠ step →
      objGet (recordError step m stk now d fs).1.errors s = objGet d.errors s) ∧
    (recordError step m stk now d fs).2.deploymentFile =
      some (recordError step m stk now d fs).1 ∧
    (∀ s e, (s, e) ∈ d.errors →
      "❌ " ++ s ∈ showDetailedErrors fmt d.errors ∧
      "   Error: " ++ e.message ∈ showDetailedErrors fmt d.errors) ∧
    objGet (clearError step d fs).1.errors step = none ∧
    (∀ s, s ≠ step →
      objGet (clearError step d fs).1.errors s = objGet d.errors s) := by
  refine ⟨?_, ?_, ?_, ?_, ?_, ?_⟩
  · exact objGet_objSet_self d.errors step _
  · exact fun s hs => objGet_objSet_ne d.errors step s _ hs
  · show (saveState (recordError step m stk now d fs).1 fs).deploymentFile = _
    cases h : fs.deploymentFile <;> simp [saveState, h]
  · intro s e hmem
    have hne : d.errors.isEmpty = false := by
      cases herr : d.errors
      · rw [herr] at hmem
        cases hmem
      · rfl
    have hrw : showDetailedErrors fmt d.errors =
        "Detailed Error Information" :: (d.errors.flatMap fun se =>
          ["❌ " ++ se.1, "   Time: " ++ fmt se.2.timestamp,
           "   Error: " ++ se.2.message]) := by
      simp [showDetailedErrors, hne]
    rw [hrw]
    constructor
    · exact List.mem_cons_of_mem _ (List.mem_flatMap.2 ⟨(s, e), hmem, by simp⟩)
    · exact List.mem_cons_of_mem _ (List.mem_flatMap.2 ⟨(s, e), hmem, by simp⟩)
  · by_cases hc : (objGet d.errors step).isSome
    · simp only [clearError, hc, ite_true]
      exact objGet_objDelete_self d.errors step hnd
    · simp only [clearError, hc, Bool.false_eq_true, ite_false]
      exact Option.not_isSome_iff_eq_none.1 (by simp [hc])
  · intro s hs
    by_cases hc : (objGet d.errors step).isSome
    · simp only [clearError, hc, ite_true]
      exact objGet_objDelete_ne d.errors step s hs
    · simp [clearError, hc]

/-- Witness for C7 at a concrete error map. -/
theorem c7_recordError_persists_and_displays_witness :
    objGet (recordError "dataDAORegistered" "boom" "stk" "2024-01-01T00:00:00Z"
      { errors := [("uiConfigured", ⟨"old", "t0", "s0"⟩)] } {}).1.errors
      "dataDAORegistered" =
      some { message := "boom", timestamp := "2024-01-01T00:00:00Z",
             stack := "stk" } :=
  (c7_recordError_persists_and_displays
    { errors := [("uiConfigured", ⟨"old", "t0", "s0"⟩)] } {}
    "dataDAORegistered" "boom" "stk" "2024-01-01T00:00:00Z" id
    (by decide)).1

/-! ### Claim C8 -/

/-- **C8**: whenever `saveState` runs and `deployment.json` exists, the
previous contents are first copied to `deployment.json.backup` before
writing; hence after every state-mutating operation (`updateState`,
`updateDeployment`, `recordError`, `clearError`, `markCompleted`) the
immediately preceding on-disk snapshot is preserved in the backup file —
for a two-save `markCompleted` the backup holds the snapshot written by
its first save. -/
theorem c8_saveState_backs_up_previous_snapshot
    (d dOld : Deployment) (fs : FileSystem)
    (u : List (StepKey × Bool)) (f : Deployment → Deployment)
    (step : StepKey) (estep m stk now : String)
    (hprev : fs.deploymentFile = some dOld) :
    (saveState d fs).backupFile = some dOld ∧
    (saveState d fs).deploymentFile = some d ∧
    (updateState u d fs).2.backupFile = some dOld ∧
    (updateDeployment f d fs).2.backupFile = some dOld ∧
    (recordError estep m stk now d fs).2.backupFile = some dOld ∧
    ((objGet d.errors estep).isSome →
      (clearError estep d fs).2.backupFile = some dOld) ∧
    (markCompleted step none d fs).2.backupFile = some dOld ∧
    (markCompleted step (some f) d fs).2.backupFile =
      some (updateState [(step, true)] d fs).1 ∧
    (markCompleted step (some f) d fs).2.deploymentFile =
      some (f (updateState [(step, true)] d fs).1) := by
  refine ⟨?_, ?_, ?_, ?_, ?_, ?_, ?_, ?_, ?_⟩
  · simp [saveState, hprev]
  · simp [saveState, hprev]
  · simp [updateState, saveState, hprev]
  · simp [updateDeployment, saveState, hprev]
  · simp [recordError, saveState, hprev]
  · intro hc
    simp [clearError, hc, saveState, hprev]
  · simp [markCompleted, updateState, saveState, hprev]
  · simp [markCompleted, updateState, updateDeployment, saveState, hprev]
  · simp [markCompleted, updateState, updateDeployment, saveState, hprev]

/-- Witness for C8 at a concrete file system. -/
theorem c8_saveState_backs_up_previous_snapshot_witness :
    (saveState { dlpName := some "NewDAO" }
      { deploymentFile := some { dlpName := some "OldDAO" } }).backupFile =
      some { dlpName := some "OldDAO" } :=
  (c8_saveState_backs_up_previous_snapshot
    { dlpName := some "NewDAO" } { dlpName := some "OldDAO" }
    { deploymentFile := some { dlpName := some "OldDAO" } }
    [] id .uiConfigured "s" "m" "k" "n" rfl).1

/-! ### Claim C9 -/

/-- **C9**: completion tracking is monotone and data-derived:
`isCompleted(step)` is true whenever the explicit flag is set or the data
field proving completion is present (`dlpId` for `dataDAORegistered`,
contract addresses in old or new format for `contractsDeployed`,
`proofUrl` for `proofConfigured`, `refinerId` for `refinerConfigured`);
`syncStateFromData` only ever turns flags from false to true, and calling
it again immediately after a first call returns `null`. -/
theorem c9_completion_monotone_and_sync_idempotent :
    (∀ (d : Deployment) (k : StepKey),
      d.flags.get k = true → isCompleted d k = true) ∧
    (∀ d : Deployment, truthyN d.dlpId = true →
      isCompleted d .dataDAORegistered = true) ∧
    (∀ d : Deployment,
      (truthyS d.tokenAddress && truthyS d.proxyAddress) = true ∨
      (∃ c, d.contracts = some c ∧
        (truthyS c.tokenAddress && truthyS c.proxyAddress) = true) →
      isCompleted d .contractsDeployed = true) ∧
    (∀ d : Deployment, truthyS d.proofUrl = true →
      isCompleted d .proofConfigured = true) ∧
    (∀ d : Deployment, truthyN d.refinerId = true →
      isCompleted d .refinerConfigured = true) ∧
    (∀ (d : Deployment) (fs : FileSystem) (k : StepKey),
      d.flags.get k = true →
      (syncStateFromData d fs).2.1.flags.get k = true) ∧
    (∀ (d : Deployment) (fs : FileSystem),
      (syncStateFromData (syncStateFromData d fs).2.1
        (syncStateFromData d fs).2.2).1 = none) := by
  have hmono : ∀ (d : Deployment) (fs : FileSystem) (k : StepKey),
      d.flags.get k = true →
      (syncStateFromData d fs).2.1.flags.get k = true := by
    intro d fs k hk
    by_cases hup : (syncUpdates d).isEmpty
    · simpa [syncStateFromData, hup] using hk
    · simp only [syncStateFromData, hup, Bool.false_eq_true, ite_false]
      rw [flags_updateState]
      exact applyFlagUpdates_get_true _ _ _ (syncUpdates_all_true d) hk
  refine ⟨?_, ?_, ?_, ?_, ?_, hmono, ?_⟩
  · intro d k hk
    rw [isCompleted_eq, hk]
    rfl
  · intro d h
    rw [isCompleted_eq]
    simp [isCompletedData, h]
  · intro d h
    rw [isCompleted_eq]
    rcases h with h | ⟨c, hc, h⟩
    · simp [isCompletedData, h]
    · simp [isCompletedData, h, hc]
  · intro d h
    rw [isCompleted_eq]
    simp [isCompletedData, h]
  · intro d h
    rw [isCompleted_eq]
    simp [isCompletedData, h]
  · intro d fs
    by_cases hup : (syncUpdates d).isEmpty
    · simp [syncStateFromData, hup]
    · -- after the first (non-trivial) sync no checked flag still needs an
      -- update, so the second call collects nothing and returns null
      have hd1 : (syncStateFromData d fs).2.1 = (updateState (syncUpdates d) d fs).1 := by
        simp [syncStateFromData, hup]
      have hnil : syncUpdates (syncStateFromData d fs).2.1 = [] := by
        rw [hd1]
        rw [syncUpdates, List.filterMap_eq_nil_iff]
        intro k hk
        rw [if_neg]
        intro hcond
        rw [Bool.and_eq_true, Bool.not_eq_eq_eq_not, Bool.not_true] at hcond
        obtain ⟨hfl1, hic1⟩ := hcond
        by_cases hc : (!d.flags.get k && isCompleted d k) = true
        · rw [flags_updateState] at hfl1
          rw [applyFlagUpdates_get_mem _ _ _ (syncUpdates_all_true d)
            (syncUpdates_mem d k hk hc)] at hfl1
          cases hfl1
        · have hkeys : k ∉ (syncUpdates d).map Prod.fst := fun hmem =>
            hc (syncUpdates_keys_cond d k hmem)
          rw [flags_updateState, applyFlagUpdates_get_not_mem _ _ _ hkeys] at hfl1
          have hic0 : isCompleted d k = false := by
            cases hio : isCompleted d k
            · rfl
            · exact absurd
                (by rw [hfl1, hio]; rfl : (!d.flags.get k && isCompleted d k) = true) hc
          have hdata : isCompletedData d k = false := by
            have := isCompleted_eq d k
            rw [hic0, hfl1] at this
            simpa using this.symm
          rw [isCompleted_eq, flags_updateState,
            applyFlagUpdates_get_not_mem _ _ _ hkeys, hfl1,
            isCompletedData_updateState, hdata] at hic1
          cases hic1
      have : ∀ (d2 : Deployment) (fs2 : FileSystem), syncUpdates d2 = [] →
          (syncStateFromData d2 fs2).1 = none := by
        intro d2 fs2 h2
        simp [syncStateFromData, h2]
      exact this _ _ hnil

/-- Witness for C9: a document with only a `dlpId` counts as registered. -/
theorem c9_completion_monotone_and_sync_idempotent_witness :
    isCompleted { dlpId := some 7 } .dataDAORegistered = true :=
  c9_completion_monotone_and_sync_idempotent.2.1 { dlpId := some 7 } rfl

/-! ## The `register:datadao` script -/

/-- External effects performed by the deployment scripts, in order. -/
inductive ScriptAction
  | rpcRead (fn : String)
  | submitTx (fn : String) (valueWei : Nat)
  | waitReceipt
  | writeDeploymentFile
  | sleep (ms : Nat)
  deriving Repr, DecidableEq

/-- `parseEther('1')`: the 1 VANA registration fee in wei. -/
def oneVanaWei : Nat := 10 ^ 18

/-- JS string interpolation of a possibly-`undefined` field. -/
def jsStr (o : Option String) : String := o.getD "undefined"

/-- `str.includes(sub)` on JavaScript strings. -/
def jsIncludes (s sub : String) : Bool := decide (sub.toList <:+: s.toList)

/-- `str.toLowerCase()`; the phrases matched by the scripts are ASCII, for
which per-character lowering coincides with the JS behaviour. -/
def jsToLower (s : String) : String := String.mk (s.toList.map Char.toLower)

/-- The JS chain
`deployment.proxyAddress || (deployment.contracts && deployment.contracts.proxyAddress) || deployment.dlpAddress`,
normalised so that `none` means the overall value is falsy. -/
def dlpProxyAddressOf (d : Deployment) : Option String :=
  if truthyS d.proxyAddress then d.proxyAddress
  else
    let fromContracts :=
      match d.contracts with
      | some c => if truthyS c.proxyAddress then c.proxyAddress else none
      | none => none
    match fromContracts with
    | some p => some p
    | none => if truthyS d.dlpAddress then d.dlpAddress else none

/-- The error categories distinguished by the `catch` block of
`performAutomatedRegistration`. -/
inductive RegErrCategory
  | insufficientFunds | userCancelled | nameConflict | reverted
  | nonceConflict | networkIssue | generic
  deriving Repr, DecidableEq

/-- What the `catch` block derives from a failure: the matched category,
the canned recovery steps it prints, and whether it announces the error as
retriable. -/
structure RegClassification where
  category : RegErrCategory
  recoverySteps : List String
  canRetry : Bool
  deriving Repr, DecidableEq

/-- The error analysis in `performAutomatedRegistration`'s `catch` block:
lowercase-substring matching against known phrases, in source order.

The name-conflict branch interpolates `dlpProxyAddress` into its recovery
steps, but that `const` is declared inside the `try` block and is not in
scope in the `catch` block: evaluating the step array raises a
`ReferenceError`, which this model returns as an `error`. -/
def classifyRegistrationError (address : Option String) (msg : String) :
    Except String RegClassification :=
  let errorLower := jsToLower msg
  if jsIncludes errorLower "insufficient funds" ||
     jsIncludes errorLower "insufficient_funds" then
    .ok ⟨.insufficientFunds,
      ["Check balance: https://moksha.vanascan.io/address/" ++ jsStr address,
       "Get testnet VANA: https://faucet.vana.org",
       "Wait 1-2 minutes for funds to arrive",
       "Retry registration: npm run register:datadao"], false⟩
  else if jsIncludes errorLower "user rejected" ||
          jsIncludes errorLower "user denied" then
    .ok ⟨.userCancelled,
      ["No action needed - you cancelled the transaction",
       "Retry when ready: npm run register:datadao"], true⟩
  else if jsIncludes errorLower "already registered" ||
          jsIncludes errorLower "dlp exists" ||
          jsIncludes errorLower "invalidname" ||
          (jsIncludes errorLower "name" && jsIncludes errorLower "taken") then
    .error "ReferenceError: dlpProxyAddress is not defined"
  else if jsIncludes errorLower "reverted" ||
          jsIncludes errorLower "execution failed" then
    .ok ⟨.reverted,
      ["Verify contract deployment succeeded: npm run status",
       "Check DLP proxy address is correct in deployment.json",
       "Ensure you're using the proxy address, not implementation",
       "Try manual registration via Vanascan"], false⟩
  else if jsIncludes errorLower "nonce" ||
          jsIncludes errorLower "already known" then
    .ok ⟨.nonceConflict,
      ["Wait 30 seconds for pending transactions",
       "Check recent transactions: https://moksha.vanascan.io/address/" ++
         jsStr address,
       "Retry registration: npm run register:datadao"], true⟩
  else if jsIncludes errorLower "timeout" ||
          jsIncludes errorLower "network" then
    .ok ⟨.networkIssue,
      ["Check your internet connection",
       "Wait 2-3 minutes for network congestion",
       "Retry registration: npm run register:datadao"], true⟩
  else
    .ok ⟨.generic,
      ["Check the full error message above",
       "Verify deployment.json has correct addresses",
       "Try manual registration via Vanascan",
       "Contact support if issue persists"], false⟩

/-- What `performAutomatedRegistration` ultimately throws when the body of
its `try` block fails with message `e`: normally the original error is
re-thrown unchanged after printing the recovery steps, but when the
classification itself crashes (name-conflict branch) the `ReferenceError`
replaces the original error. -/
def registrationCatchError (address : Option String) (e : String) : String :=
  match classifyRegistrationError address e with
  | .ok _ => e
  | .error ref => ref

/-- The environment of one `register:datadao` run: the outcomes of every
external interaction and every interactive answer. `dlpIdsSeq n` is the
result of the (n+1)-th `dlpIds` registry read of the run (`getDlpId`
swallows RPC errors and returns 0, so a plain number suffices). -/
structure RegEnv where
  envQuickMode : Bool := false
  envFileExists : Bool := true
  hasPrivateKeyLine : Bool := true
  accountOk : Bool := true
  accountErrMsg : String := ""
  balanceRes : Option Bool := some true
  confirm : Bool := true
  txRes : Except String String := .ok "0xhash"
  receiptSuccess : Bool := true
  dlpIdsSeq : Nat → Nat := fun _ => 0
  nameToIdRes : Option Nat := none
  methodChoice : Nat := 0
  manualCompleted : Bool := true

/-- Result of running a script fragment: its action trace, its value or
thrown error, and the index of the next `dlpIds` read. -/
structure RunResult (α : Type) where
  trace : List ScriptAction
  result : Except String α
  nextIdx : Nat

/-- `checkWalletBalance`: one `getBalance` RPC read; a check that throws is
treated as sufficient (`none`). -/
def checkWalletBalance (env : RegEnv) : List ScriptAction × Bool :=
  ([.rpcRead "getBalance"],
   match env.balanceRes with
   | none => true
   | some b => b)

/-- `performAutomatedRegistration(deployment, quickMode)`.  Every failure
inside the `try` block passes through the `catch` block's classification
(`registrationCatchError`) before being re-thrown.  A successful run
submits `registerDlp` with 1 VANA, waits for the receipt, re-reads the
`dlpIds` registry and persists the retrieved dlpId. -/
def performAutomatedRegistration (d : Deployment) (quickMode : Bool)
    (env : RegEnv) (idx : Nat) : RunResult (Bool × Deployment) :=
  if !env.envFileExists then
    ⟨[], .error "No contracts/.env file found. Cannot access private key.", idx⟩
  else if !env.hasPrivateKeyLine then
    ⟨[], .error "No DEPLOYER_PRIVATE_KEY found in contracts/.env", idx⟩
  else if !env.accountOk then
    ⟨[], .error (registrationCatchError d.address env.accountErrMsg), idx⟩
  else
    let bal := checkWalletBalance env
    if !bal.2 then
      ⟨bal.1, .error (registrationCatchError d.address
        "Insufficient wallet balance for registration"), idx⟩
    else
      match dlpProxyAddressOf d with
      | none =>
        ⟨bal.1, .error (registrationCatchError d.address
          "DLP proxy address not found in deployment.json"), idx⟩
      | some _ =>
        if !quickMode && !env.confirm then
          ⟨bal.1, .error (registrationCatchError d.address
            "Registration cancelled by user"), idx⟩
        else
          match env.txRes with
          | .error e =>
            ⟨bal.1 ++ [.submitTx "registerDlp" oneVanaWei],
             .error (registrationCatchError d.address e), idx⟩
          | .ok hash =>
            let tr1 := bal.1 ++ [.submitTx "registerDlp" oneVanaWei, .waitReceipt]
            if env.receiptSuccess then
              let found := env.dlpIdsSeq idx
              let tr2 := tr1 ++ [.rpcRead "dlpIds"]
              if found > 0 then
                let fl' := { d.flags with dataDAORegistered := true }
                let d' := { d with dlpId := some found, state := some fl' }
                ⟨tr2 ++ [.writeDeploymentFile], .ok (true, d'), idx + 1⟩
              else
                ⟨tr2, .error (registrationCatchError d.address
                  "Registration transaction succeeded but could not retrieve dlpId"),
                 idx + 1⟩
            else
              ⟨tr1, .error (registrationCatchError d.address
                ("Registration transaction failed. Hash: " ++ hash)), idx⟩

/-- The choices offered when the user answers "no" to "Have you completed
the registration transaction?". -/
inductive ManualAction
  | completedNow | instructions | help | switchAuto | skip
  deriving Repr, DecidableEq

/-- The choices offered when the dlpId could not be detected. -/
inductive RetryAction
  | retry | check | manualEntry (n : Nat) | switchAuto | skip
  deriving Repr, DecidableEq

/-- The dlpId detection loop of `performManualRegistration`
(`for (let i = 0; i < fuel; i++)`): one registry read per iteration, break
on a positive id, otherwise sleep 3 seconds and retry.  Returns the trace,
the final `dlpId` variable and the next read index. -/
def detectDlpIdLoop (env : RegEnv) (idx : Nat) : Nat → List ScriptAction × Nat × Nat
  | 0 => ([], 0, idx)
  | fuel + 1 =>
    let found := env.dlpIdsSeq idx
    if found > 0 then ([.rpcRead "dlpIds"], found, idx + 1)
    else
      let rest := detectDlpIdLoop env (idx + 1) fuel
      (.rpcRead "dlpIds" :: .sleep 3000 :: rest.1, rest.2.1, rest.2.2)

/-- The confirmation loop of `performManualRegistration`.  `none` means the
loop broke out towards dlpId detection; `some r` means the whole function
returned (delegation to automated registration, a skip, or — a modelling
device only — the interactive input stream running dry). -/
def manualConfirmLoop (d : Deployment) (env : RegEnv) (idx : Nat) :
    List ManualAction → Option (RunResult (Bool × Deployment))
  | [] => some ⟨[], .error "interactive session abandoned", idx⟩
  | a :: rest =>
    match a with
    | .completedNow => none
    | .instructions => manualConfirmLoop d env idx rest
    | .help => manualConfirmLoop d env idx rest
    | .switchAuto => some (performAutomatedRegistration d false env idx)
    | .skip => some ⟨[], .error "Registration skipped by user", idx⟩

/-- Outcome of the detection-retry loop: either the surrounding function
returns with `r`, or a dlpId was obtained and the flow continues. -/
inductive RetryOutcome
  | done (r : RunResult (Bool × Deployment))
  | gotId (trace : List ScriptAction) (dlpId : Nat) (nextIdx : Nat)

/-- The retry loop of `performManualRegistration` after a failed detection:
re-poll five times, display help, accept a manually entered id, switch to
automated registration, or skip. -/
def manualRetryLoop (d : Deployment) (env : RegEnv) (idx : Nat) :
    List RetryAction → RetryOutcome
  | [] => .done ⟨[], .error "interactive session abandoned", idx⟩
  | a :: rest =>
    match a with
    | .retry =>
      let p := detectDlpIdLoop env idx 5
      if p.2.1 > 0 then .gotId p.1 p.2.1 p.2.2
      else
        match manualRetryLoop d env p.2.2 rest with
        | .done r => .done ⟨p.1 ++ r.trace, r.result, r.nextIdx⟩
        | .gotId tr n i => .gotId (p.1 ++ tr) n i
    | .check => manualRetryLoop d env idx rest
    | .manualEntry n => .gotId [] n idx
    | .switchAuto => .done (performAutomatedRegistration d false env idx)
    | .skip => .done ⟨[], .error "Registration incomplete - skipped by user", idx⟩

/-- The environment's interactive answers for the manual flow. -/
structure ManualEnv where
  manualActions : List ManualAction := []
  retryActions : List RetryAction := []

/-- `performManualRegistration(deployment)`: print the instructions, wait
for the user, auto-detect the dlpId with a 10-attempt poll, and on success
return `true` *without* touching `deployment.json` (the user is asked to
update it by hand). -/
def performManualRegistration (d : Deployment) (env : RegEnv) (menv : ManualEnv)
    (idx : Nat) : RunResult (Bool × Deployment) :=
  let proceed :=
    if env.manualCompleted then none
    else manualConfirmLoop d env idx menv.manualActions
  match proceed with
  | some r => r
  | none =>
    let p := detectDlpIdLoop env idx 10
    if p.2.1 > 0 then ⟨p.1, .ok (true, d), p.2.2⟩
    else
      match manualRetryLoop d env p.2.2 menv.retryActions with
      | .done r => ⟨p.1 ++ r.trace, r.result, r.nextIdx⟩
      | .gotId tr _ i => ⟨p.1 ++ tr, .ok (true, d), i⟩

/-- The registration method chosen at the prompt. -/
inductive RegMethod
  | auto | manual | skip
  deriving Repr, DecidableEq

/-- The answers in the skip sub-menu ("Actually, let's register now" with a
new method choice, "Show me what registration does", or continue and
abandon registration). -/
inductive SkipChoice
  | registerAuto | registerManual | explain | continueSetup
  deriving Repr, DecidableEq

/-- Resolve the skip sub-menu loop to the eventually selected method, or to
the thrown error when the user keeps the registration skipped. -/
def resolveSkip : List SkipChoice → Except String RegMethod
  | [] => .error "interactive session abandoned"
  | c :: rest =>
    match c with
    | .registerAuto => .ok .auto
    | .registerManual => .ok .manual
    | .explain => resolveSkip rest
    | .continueSetup => .error "Registration skipped by user"

/-- The interactive answers of the `registerDataDAO` entry point. -/
structure RegisterChoices where
  method : RegMethod := .auto
  skipChoices : List SkipChoice := []
  manual : ManualEnv := {}

/-- `registerDataDAO()`: load `deployment.json`, check the DLP proxy
address, read the current registration from the registry (`dlpIds`); if a
positive dlpId comes back, record it, set `state.dataDAORegistered` and
save, completing without a transaction.  Otherwise check the name's
availability (`dlpNameToId`), throw when it is taken, and run the selected
registration method.  The returned `Deployment` is the script's in-memory
document when it finishes. -/
def registerDataDAO (fsFile : Option Deployment) (env : RegEnv)
    (choices : RegisterChoices) : RunResult Deployment :=
  match fsFile with
  | none => ⟨[], .error "No deployment.json found. Please deploy contracts first.", 0⟩
  | some d =>
    let quickMode := env.envQuickMode || d.quickMode
    match dlpProxyAddressOf d with
    | none => ⟨[], .error "No DLP proxy address found. Please deploy contracts first.", 0⟩
    | some _ =>
      let existing := env.dlpIdsSeq 0
      if existing > 0 then
        let fl' := { d.flags with dataDAORegistered := true }
        let d' := { d with dlpId := some existing, state := some fl' }
        ⟨[.rpcRead "dlpIds", .writeDeploymentFile], .ok d', 1⟩
      else
        let tr0 : List ScriptAction := [.rpcRead "dlpIds", .rpcRead "dlpNameToId"]
        let available :=
          match env.nameToIdRes with
          | none => true
          | some n => !(n > 0)
        if !available then
          ⟨tr0, .error ("DLP name \"" ++ jsStr d.dlpName ++
            "\" is already taken (dlpId: " ++
            toString ((env.nameToIdRes).getD 0) ++ ")"), 1⟩
        else
          let methodRes :=
            if quickMode then .ok .auto
            else
              match choices.method with
              | .skip => resolveSkip choices.skipChoices
              | m => .ok m
          match methodRes with
          | .error e => ⟨tr0, .error e, 1⟩
          | .ok m =>
            let r :=
              match m with
              | .auto => performAutomatedRegistration d quickMode env 1
              | _ => performManualRegistration d env choices.manual 1
            match r.result with
            | .ok p => ⟨tr0 ++ r.trace, .ok p.2, r.nextIdx⟩
            | .error e => ⟨tr0 ++ r.trace, .error e, r.nextIdx⟩

/-! ## `scripts/deploy-refiner.js` — `pollEncryptionKey` -/

/-- One attempt's outcome for `pollEncryptionKey`: the `dlpPubKeys` read
either throws (`error`, swallowed by the loop's `catch`) or returns a
string (possibly empty). -/
def PollOracle := Nat → Except Unit String

/-- The body of `pollEncryptionKey` from attempt `i` on: read the key, stop
when it is non-empty, otherwise sleep 30 seconds (except after the final
attempt) and retry; errors are caught and treated like an empty read. -/
def pollAttempts (oracle : PollOracle) (maxAttempts : Nat) (i : Nat) :
    List ScriptAction × Option String :=
  if _h : i < maxAttempts then
    match oracle i with
    | .ok k =>
      if k ≠ "" then ([.rpcRead "dlpPubKeys"], some k)
      else
        let rest := pollAttempts oracle maxAttempts (i + 1)
        (.rpcRead "dlpPubKeys" ::
          ((if i < maxAttempts - 1 then [.sleep 30000] else []) ++ rest.1),
         rest.2)
    | .error _ =>
      let rest := pollAttempts oracle maxAttempts (i + 1)
      (.rpcRead "dlpPubKeys" ::
        ((if i < maxAttempts - 1 then [.sleep 30000] else []) ++ rest.1),
       rest.2)
  else ([], none)
termination_by maxAttempts - i

/-- `pollEncryptionKey(dlpId, maxAttempts = 60)`: bounded polling starting
at attempt 0; returns `null` (`none`) when all attempts are exhausted. -/
def pollEncryptionKey (oracle : PollOracle) (maxAttempts : Nat := 60) :
    List ScriptAction × Option String :=
  pollAttempts oracle maxAttempts 0

/-- Number of contract reads in a trace. -/
def readCount (tr : List ScriptAction) : Nat :=
  tr.countP fun a => match a with | .rpcRead _ => true | _ => false

/-- Is this action a transaction submission? -/
def isSubmitTx : ScriptAction → Bool
  | .submitTx _ _ => true
  | _ => false

/-! ### Claim C1 -/

/-- Concrete run used to refute C1 as stated: the registry read returns 0,
but the DLP name is already taken. -/
def c1Deployment : Deployment :=
  { dlpName := some "X", address := some "0xA", proxyAddress := some "0xP" }

/-- Environment of the refuting run: `dlpIds` yields 0, `dlpNameToId`
yields 5. -/
def c1Env : RegEnv := { nameToIdRes := some 5 }

/-- **C1** counterexample: a `register:datadao` run whose deployment.json
has a DLP proxy address and whose initial `dlpIds` read returns 0, yet the
script submits no `registerDlp` transaction at all — the name-availability
check finds the name taken and the run fails, refuting the claim's
unconditional "otherwise it submits a registerDlp transaction with 1 VANA
attached". -/
theorem c1_name_taken_submits_nothing :
    (registerDataDAO (some c1Deployment) c1Env {}).trace =
      [.rpcRead "dlpIds", .rpcRead "dlpNameToId"] ∧
    (registerDataDAO (some c1Deployment) c1Env {}).result =
      .error "DLP name \"X\" is already taken (dlpId: 5)" ∧
    (registerDataDAO (some c1Deployment) c1Env {}).trace.all
      (fun a => !isSubmitTx a) = true := by
  refine ⟨?_, ?_, ?_⟩ <;> rfl

/-- **C1** (amended): for every run with a DLP proxy address in
deployment.json, the script first reads the existing registration via the
`dlpIds` RPC call; if that returns a positive dlpId the script records it,
sets `state.dataDAORegistered`, and completes successfully without
submitting any transaction; if it returns 0 *and* the name-availability
check passes *and* the automated path proceeds (quick mode, env file with
the key present, account and balance checks pass, the transaction is
accepted and its receipt reports success, and the follow-up `dlpIds` read
is positive), the script submits `registerDlp` with 1 VANA attached, waits
for the receipt, re-reads the dlpId and records it. -/
theorem c1_register_flow (d : Deployment) (env : RegEnv)
    (choices : RegisterChoices) (p h : String)
    (hp : dlpProxyAddressOf d = some p) :
    ((registerDataDAO (some d) env choices).trace.head? =
      some (.rpcRead "dlpIds")) ∧
    (∀ n, env.dlpIdsSeq 0 = n → 0 < n →
      registerDataDAO (some d) env choices =
        ⟨[.rpcRead "dlpIds", .writeDeploymentFile],
         .ok { d with
               dlpId := some n,
               state := some ({ d.flags with dataDAORegistered := true }) },
         1⟩) ∧
    (env.dlpIdsSeq 0 = 0 → (env.envQuickMode || d.quickMode) = true →
      (env.nameToIdRes = none ∨ env.nameToIdRes = some 0) →
      env.envFileExists = true → env.hasPrivateKeyLine = true →
      env.accountOk = true → (checkWalletBalance env).2 = true →
      env.txRes = .ok h → env.receiptSuccess = true → 0 < env.dlpIdsSeq 1 →
      registerDataDAO (some d) env choices =
        ⟨[.rpcRead "dlpIds", .rpcRead "dlpNameToId", .rpcRead "getBalance",
          .submitTx "registerDlp" oneVanaWei, .waitReceipt, .rpcRead "dlpIds",
          .writeDeploymentFile],
         .ok { d with
               dlpId := some (env.dlpIdsSeq 1),
               state := some ({ d.flags with dataDAORegistered := true }) },
         2⟩) := by
  refine ⟨?_, ?_, ?_⟩
  · simp only [registerDataDAO, hp]
    by_cases h0 : 0 < env.dlpIdsSeq 0
    · simp [h0]
    · simp only [h0, ite_false, if_neg]
      repeat' split
      all_goals simp
  · intro n hn hpos
    simp [registerDataDAO, hp, hn, hpos]
  · intro h0 hq hname hef hpk hacc hbal htx hrc hpost
    have hbal2 : (match env.balanceRes with | none => true | some b => b) = true := by
      simpa [checkWalletBalance] using hbal
    rcases hname with hnm | hnm <;>
      simp [registerDataDAO, performAutomatedRegistration, checkWalletBalance,
        hp, h0, hq, hnm, hef, hpk, hacc, hbal2, htx, hrc, hpost]

/-- Witness for the amended C1 at a concrete environment where the
automated path runs end to end. -/
theorem c1_register_flow_witness :
    registerDataDAO (some c1Deployment)
      { envQuickMode := true,
        dlpIdsSeq := fun i => if i = 0 then 0 else 42 } {} =
      ⟨[.rpcRead "dlpIds", .rpcRead "dlpNameToId", .rpcRead "getBalance",
        .submitTx "registerDlp" oneVanaWei, .waitReceipt, .rpcRead "dlpIds",
        .writeDeploymentFile],
       .ok { c1Deployment with
             dlpId := some 42,
             state := some ({ c1Deployment.flags with dataDAORegistered := true }) },
       2⟩ :=
  ((c1_register_flow c1Deployment
      { envQuickMode := true, dlpIdsSeq := fun i => if i = 0 then 0 else 42 }
      {} "0xP" "0xhash" rfl).2.2
    rfl rfl (Or.inl rfl) rfl rfl rfl rfl rfl rfl (by decide))

/-! ### Claim C5 -/

/-- An attempt that does not stop the loop: the read threw or returned the
empty string. -/
def badAttempt (oracle : PollOracle) (j : Nat) : Prop :=
  oracle j = .error () ∨ oracle j = .ok ""

theorem pollAttempts_reads_le (o : PollOracle) (m i : Nat) :
    readCount (pollAttempts o m i).1 ≤ m - i := by
  generalize hn : m - i = n
  induction n generalizing i with
  | zero =>
    have hlt : ¬ i < m := by omega
    rw [pollAttempts, dif_neg hlt]
    simp [readCount]
  | succ n ih =>
    have hlt : i < m := by omega
    rw [pollAttempts, dif_pos hlt]
    cases ho : o i with
    | ok k =>
      by_cases hk : k ≠ ""
      · simp [hk, readCount]
      · have := ih (i + 1) (by omega)
        simp only [hk, ite_false, if_neg, not_not]
        simp only [readCount, List.countP_cons, List.countP_append] at *
        split <;> simp_all
    | error e =>
      have := ih (i + 1) (by omega)
      simp only [readCount, List.countP_cons, List.countP_append] at *
      split <;> simp_all

theorem pollAttempts_sleeps (o : PollOracle) (m i ms : Nat)
    (hmem : ScriptAction.sleep ms ∈ (pollAttempts o m i).1) : ms = 30000 := by
  generalize hn : m - i = n at *
  induction n generalizing i with
  | zero =>
    have hlt : ¬ i < m := by omega
    rw [pollAttempts, dif_neg hlt] at hmem
    cases hmem
  | succ n ih =>
    have hlt : i < m := by omega
    rw [pollAttempts, dif_pos hlt] at hmem
    cases ho : o i with
    | ok k =>
      rw [ho] at hmem
      by_cases hk : k ≠ ""
      · simp [hk] at hmem
      · simp only [hk, ite_false, if_neg, not_not] at hmem
        simp only [List.mem_cons, List.mem_append] at hmem
        rcases hmem with h | h
        · cases h
        · rcases h with h | h
          · rcases (by split at h <;> simp_all : ms = 30000) with h2
            exact h2
          · exact ih (i + 1) h (by omega)
    | error e =>
      rw [ho] at hmem
      simp only [List.mem_cons, List.mem_append] at hmem
      rcases hmem with h | h
      · cases h
      · rcases h with h | h
        · rcases (by split at h <;> simp_all : ms = 30000) with h2
          exact h2
        · exact ih (i + 1) h (by omega)

theorem pollAttempts_first_good (o : PollOracle) (m i f : Nat) (k : String)
    (hif : i ≤ f) (hfm : f < m) (hok : o f = .ok k) (hk : k ≠ "")
    (hbad : ∀ j, i ≤ j → j < f → badAttempt o j) :
    (pollAttempts o m i).2 = some k ∧
    readCount (pollAttempts o m i).1 = (f - i) + 1 := by
  generalize hn : f - i = n
  induction n generalizing i with
  | zero =>
    have hfi : f = i := by omega
    subst hfi
    rw [pollAttempts, dif_pos hfm, hok]
    simp [hk, readCount]
  | succ n ih =>
    have hlt : i < m := by omega
    have hbi : badAttempt o i := hbad i (le_refl i) (by omega)
    have hrest := ih (i + 1) (by omega)
      (fun j h1 h2 => hbad j (by omega) h2) (by omega)
    rw [pollAttempts, dif_pos hlt]
    rcases hbi with hb | hb <;> rw [hb]
    · refine ⟨hrest.1, ?_⟩
      simp only [readCount, List.countP_cons, List.countP_append] at *
      split <;> simp_all
    · simp only [ne_eq, not_true_eq_false, ite_false, if_neg, not_not]
      refine ⟨hrest.1, ?_⟩
      simp only [readCount, List.countP_cons, List.countP_append] at *
      split <;> simp_all

theorem pollAttempts_all_bad (o : PollOracle) (m i : Nat)
    (hbad : ∀ j, i ≤ j → j < m → badAttempt o j) :
    (pollAttempts o m i).2 = none ∧
    readCount (pollAttempts o m i).1 = m - i := by
  generalize hn : m - i = n
  induction n generalizing i with
  | zero =>
    have hlt : ¬ i < m := by omega
    rw [pollAttempts, dif_neg hlt]
    simp [readCount]
  | succ n ih =>
    have hlt : i < m := by omega
    have hbi : badAttempt o i := hbad i (le_refl i) hlt
    have hrest := ih (i + 1)
      (fun j h1 h2 => hbad j (by omega) h2) (by omega)
    rw [pollAttempts, dif_pos hlt]
    rcases hbi with hb | hb <;> rw [hb]
    · refine ⟨hrest.1, ?_⟩
      simp only [readCount, List.countP_cons, List.countP_append] at *
      split <;> simp_all
    · simp only [ne_eq, not_true_eq_false, ite_false, if_neg, not_not]
      refine ⟨hrest.1, ?_⟩
      simp only [readCount, List.countP_cons, List.countP_append] at *
      split <;> simp_all

theorem detectDlpIdLoop_bounded (env : RegEnv) (idx fuel : Nat) :
    readCount (detectDlpIdLoop env idx fuel).1 ≤ fuel ∧
    (∀ ms, ScriptAction.sleep ms ∈ (detectDlpIdLoop env idx fuel).1 →
      ms = 3000) := by
  induction fuel generalizing idx with
  | zero => simp [detectDlpIdLoop, readCount]
  | succ n ih =>
    by_cases h : 0 < env.dlpIdsSeq idx
    · simp [detectDlpIdLoop, h, readCount]
    · have := ih (idx + 1)
      constructor
      · simp only [detectDlpIdLoop, h, ite_false, if_neg, not_false_iff]
        simp only [readCount, List.countP_cons] at *
        simp_all
      · intro ms hmem
        simp only [detectDlpIdLoop, h, ite_false, if_neg, List.mem_cons] at hmem
        rcases hmem with h1 | h1
        · cases h1
        · rcases h1 with h1 | h1
          · cases h1
            rfl
          · exact this.2 ms h1

/-- **C5**: every retry loop is bounded polling with a fixed sleep
interval.  `pollEncryptionKey` performs at most `maxAttempts` (default 60)
contract reads, each sleep between attempts is exactly 30 seconds, the
first non-empty read value is returned immediately, `null` is returned
after exhausting all attempts (read errors are swallowed, never thrown),
and the manual-registration dlpId detection loop performs at most 10 reads
with fixed 3-second sleeps. -/
theorem c5_bounded_polling_terminates :
    (∀ (oracle : PollOracle) (maxAttempts : Nat),
      readCount (pollEncryptionKey oracle maxAttempts).1 ≤ maxAttempts ∧
      (∀ ms, ScriptAction.sleep ms ∈ (pollEncryptionKey oracle maxAttempts).1 →
        ms = 30000)) ∧
    (∀ (oracle : PollOracle) (maxAttempts f : Nat) (k : String),
      f < maxAttempts → oracle f = .ok k → k ≠ "" →
      (∀ j, j < f → badAttempt oracle j) →
      (pollEncryptionKey oracle maxAttempts).2 = some k ∧
      readCount (pollEncryptionKey oracle maxAttempts).1 = f + 1) ∧
    (∀ (oracle : PollOracle) (maxAttempts : Nat),
      (∀ j, j < maxAttempts → badAttempt oracle j) →
      (pollEncryptionKey oracle maxAttempts).2 = none ∧
      readCount (pollEncryptionKey oracle maxAttempts).1 = maxAttempts) ∧
    (∀ (env : RegEnv) (idx : Nat),
      readCount (detectDlpIdLoop env idx 10).1 ≤ 10 ∧
      (∀ ms, ScriptAction.sleep ms ∈ (detectDlpIdLoop env idx 10).1 →
        ms = 3000)) := by
  refine ⟨?_, ?_, ?_, ?_⟩
  · intro oracle maxAttempts
    exact ⟨by simpa using pollAttempts_reads_le oracle maxAttempts 0,
      fun ms hm => pollAttempts_sleeps oracle maxAttempts 0 ms hm⟩
  · intro oracle maxAttempts f k hf hok hk hbad
    have := pollAttempts_first_good oracle maxAttempts 0 f k (Nat.zero_le f)
      hf hok hk (fun j _ hj => hbad j hj)
    simpa [pollEncryptionKey] using this
  · intro oracle maxAttempts hbad
    have := pollAttempts_all_bad oracle maxAttempts 0 (fun j _ hj => hbad j hj)
    simpa [pollEncryptionKey] using this
  · intro env idx
    exact detectDlpIdLoop_bounded env idx 10

/-- Witness for C5: a concrete oracle whose third attempt succeeds. -/
theorem c5_bounded_polling_terminates_witness :
    (pollEncryptionKey (fun i => if i < 2 then .ok "" else .ok "PUBKEY") 60).2 =
      some "PUBKEY" ∧
    readCount (pollEncryptionKey
      (fun i => if i < 2 then .ok "" else .ok "PUBKEY") 60).1 = 3 :=
  c5_bounded_polling_terminates.2.1
    (fun i => if i < 2 then .ok "" else .ok "PUBKEY") 60 2 "PUBKEY"
    (by decide) rfl (by decide)
    (fun j hj => Or.inr (by simp [hj]))

/-! ### Claim C6 -/

/-- **C6** (code bug): the registration error handler classifies failures
by lowercase-substring matching as the claim describes, and for most
categories it prints the canned steps and re-throws the original error
(e.g. the insufficient-funds, nonce — retriable — and timeout — retriable —
categories below).  But for the name-conflict category ('already
registered' / 'dlp exists' / 'invalidname' / name-taken) the `catch` block
reads `dlpProxyAddress`, a `const` declared inside the `try` block and out
of scope in the `catch`, so evaluating its recovery steps raises a
`ReferenceError`: the canned steps are not printed and the `ReferenceError`
replaces the original error instead of re-throwing it unchanged. -/
theorem c6_catch_handler_name_conflict_crashes :
    classifyRegistrationError (some "0xOwner") "Error: DLP already registered" =
      .error "ReferenceError: dlpProxyAddress is not defined" ∧
    registrationCatchError (some "0xOwner") "Error: DLP already registered" =
      "ReferenceError: dlpProxyAddress is not defined" ∧
    classifyRegistrationError (some "0xOwner")
      "insufficient funds for gas * price + value" =
      .ok { category := .insufficientFunds,
            recoverySteps :=
              ["Check balance: https://moksha.vanascan.io/address/0xOwner",
               "Get testnet VANA: https://faucet.vana.org",
               "Wait 1-2 minutes for funds to arrive",
               "Retry registration: npm run register:datadao"],
            canRetry := false } ∧
    registrationCatchError (some "0xOwner")
      "insufficient funds for gas * price + value" =
      "insufficient funds for gas * price + value" ∧
    (classifyRegistrationError (some "0xOwner") "nonce too low").map
      (fun c => (c.category, c.canRetry)) = .ok (.nonceConflict, true) ∧
    registrationCatchError (some "0xOwner") "nonce too low" = "nonce too low" ∧
    (classifyRegistrationError (some "0xOwner") "request timeout").map
      (fun c => (c.category, c.canRetry)) = .ok (.networkIssue, true) ∧
    (classifyRegistrationError (some "0xOwner") "User rejected the request").map
      (fun c => (c.category, c.canRetry)) = .ok (.userCancelled, true) ∧
    (classifyRegistrationError (some "0xOwner") "execution reverted").map
      (fun c => (c.category, c.canRetry)) = .ok (.reverted, false) ∧
    (classifyRegistrationError (some "0xOwner") "something inexplicable").map
      (fun c => (c.category, c.canRetry)) = .ok (.generic, false) := by
  refine ⟨rfl, rfl, rfl, rfl, rfl, rfl, rfl, rfl, rfl, rfl⟩

/-! ## The `deploy:contracts` script -/

/-- The ECMA-262 `\s` character class. -/
def jsWs (c : Char) : Bool :=
  ([0x09, 0x0a, 0x0b, 0x0c, 0x0d, 0x20, 0xa0, 0x1680,
    0x2000, 0x2001, 0x2002, 0x2003, 0x2004, 0x2005, 0x2006, 0x2007,
    0x2008, 0x2009, 0x200a, 0x2028, 0x2029, 0x202f, 0x205f, 0x3000,
    0xfeff] : List Nat).contains c.toNat

/-- The `[a-fA-F0-9]` character class. -/
def isHexDigit (c : Char) : Bool :=
  ('0' ≤ c && c ≤ '9') || ('a' ≤ c && c ≤ 'f') || ('A' ≤ c && c ≤ 'F')

/-- The tokens of the address-extraction regexes: literal text, `\s*`,
`\s+`, and the capturing group `(0x[a-fA-F0-9]{40})` that every pattern
ends with. -/
inductive PatTok
  | lit (s : String) | ws0 | ws1 | addr
  deriving Repr, DecidableEq

/-- Take exactly `n` hex digits. -/
def takeHexN : Nat → List Char → Option (List Char)
  | 0, _ => some []
  | _ + 1, [] => none
  | n + 1, c :: cs =>
    if isHexDigit c then (takeHexN n cs).map (c :: ·) else none

/-- Match a token list at the start of `cs`, returning the captured
address.  Every `\s*`/`\s+` here is followed by a token starting with a
non-whitespace character, so maximal munch coincides with the regex's
backtracking semantics. -/
def matchToksAt : List PatTok → List Char → Option String
  | [], _ => none
  | .lit s :: rest, cs =>
    if s.toList.isPrefixOf cs then matchToksAt rest (cs.drop s.length)
    else none
  | .ws0 :: rest, cs => matchToksAt rest (cs.dropWhile jsWs)
  | .ws1 :: rest, cs =>
    match cs with
    | c :: cs' =>
      if jsWs c then matchToksAt rest (cs'.dropWhile jsWs) else none
    | [] => none
  | .addr :: _, cs =>
    match cs with
    | '0' :: 'x' :: cs' =>
      (takeHexN 40 cs').map fun ds => String.mk ('0' :: 'x' :: ds)
    | _ => none

/-- Leftmost-match scan, as `String.prototype.match` with a non-global
regex. -/
def findFirstMatch (toks : List PatTok) : List Char → Option String
  | [] => matchToksAt toks []
  | c :: cs =>
    match matchToksAt toks (c :: cs) with
    | some r => some r
    | none => findFirstMatch toks cs

/-- `output.match(regex)` restricted to the captured address. -/
def jsMatch (toks : List PatTok) (s : String) : Option String :=
  findFirstMatch toks s.toList

/-- `/Token Address:\s*(0x[a-fA-F0-9]{40})/` -/
def tokenAddressPat : List PatTok := [.lit "Token Address:", .ws0, .addr]

/-- `/DataLiquidityPoolProxy\s+deployed\s+to:\s*(0x[a-fA-F0-9]{40})/` -/
def dlpProxyPat : List PatTok :=
  [.lit "DataLiquidityPoolProxy", .ws1, .lit "deployed", .ws1, .lit "to:",
   .ws0, .addr]

/-- `/Vesting Wallet Address:\s*(0x[a-fA-F0-9]{40})/` -/
def vestingPat : List PatTok := [.lit "Vesting Wallet Address:", .ws0, .addr]

/-- `/Proxy deployed to:\s*(0x[a-fA-F0-9]{40})/` -/
def altProxyPat : List PatTok := [.lit "Proxy deployed to:", .ws0, .addr]

/-- The environment of a `deploy:contracts` run: the balance check outcome
(`none` = the check threw and the script proceeds; `some false` = process
exit) and the hardhat invocation's outcome. -/
structure DeployEnv where
  balanceRes : Option Bool := some true
  hardhat : Except String String := .ok ""

/-- Result of `deployContracts`: `exited` means `process.exit(1)` without
recording addresses; `deployed d'` means `deployment.json` was written with
contents `d'`. -/
inductive DeployOutcome
  | exited (reason : String)
  | deployed (d' : Deployment)
  deriving Repr, DecidableEq

/-- `deployContracts()`: regex-parse the hardhat output for the token and
proxy addresses; exit without recording anything when either cannot be
extracted; otherwise record both (under `contracts.*` and as top-level
backward-compatible fields), set `state.contractsDeployed` and save.  When
the hardhat invocation itself throws, the catch block classifies the error
and exits (the partial-save branch is unreachable then, since no match
variables were assigned). -/
def deployContracts (d : Deployment) (env : DeployEnv) : DeployOutcome :=
  match env.balanceRes with
  | some false => .exited "insufficient balance"
  | _ =>
    match env.hardhat with
    | .error e => .exited ("deployment failed: " ++ e)
    | .ok output =>
      let tokenMatch := jsMatch tokenAddressPat output
      let proxyMatch := jsMatch dlpProxyPat output
      let vestingMatch := jsMatch vestingPat output
      let altProxyMatch := jsMatch altProxyPat output
      match tokenMatch with
      | none => .exited "failed to extract token address"
      | some tokenAddress =>
        let proxyAddress :=
          match proxyMatch with
          | some p => some p
          | none => altProxyMatch
        match proxyAddress with
        | none => .exited "failed to extract proxy address"
        | some proxy =>
          .deployed { d with
            contracts := some { tokenAddress := some tokenAddress,
                                proxyAddress := some proxy,
                                vestingAddress := vestingMatch },
            tokenAddress := some tokenAddress,
            proxyAddress := some proxy,
            vestingAddress :=
              if vestingMatch.isSome then vestingMatch else d.vestingAddress,
            state := some ({ d.flags with contractsDeployed := true }) }

/-! ### Claim C3 -/

/-- **C3**: `deployContracts` extracts the token address from
`Token Address: 0x<40 hex>` and the proxy address from either
`DataLiquidityPoolProxy deployed to:` or `Proxy deployed to:` followed by
a 40-hex-digit address; if either cannot be extracted it exits without
recording addresses, and when both are extracted it writes them into
`deployment.json` under `contracts.*` and as top-level fields and sets
`state.contractsDeployed`. -/
theorem c3_deployContracts_regex_extraction
    (d : Deployment) (env : DeployEnv) (out : String)
    (hok : env.hardhat = .ok out) (hbal : env.balanceRes ≠ some false) :
    (jsMatch tokenAddressPat out = none →
      deployContracts d env = .exited "failed to extract token address") ∧
    (∀ t, jsMatch tokenAddressPat out = some t →
      jsMatch dlpProxyPat out = none → jsMatch altProxyPat out = none →
      deployContracts d env = .exited "failed to extract proxy address") ∧
    (∀ t p, jsMatch tokenAddressPat out = some t →
      (jsMatch dlpProxyPat out = some p ∨
        (jsMatch dlpProxyPat out = none ∧ jsMatch altProxyPat out = some p)) →
      deployContracts d env = .deployed { d with
        contracts := some { tokenAddress := some t,
                            proxyAddress := some p,
                            vestingAddress := jsMatch vestingPat out },
        tokenAddress := some t,
        proxyAddress := some p,
        vestingAddress :=
          if (jsMatch vestingPat out).isSome then jsMatch vestingPat out
          else d.vestingAddress,
        state := some ({ d.flags with contractsDeployed := true }) }) := by
  have hshape : deployContracts d env =
      (match env.hardhat with
      | .error e => .exited ("deployment failed: " ++ e)
      | .ok output =>
        let tokenMatch := jsMatch tokenAddressPat output
        let proxyMatch := jsMatch dlpProxyPat output
        let vestingMatch := jsMatch vestingPat output
        let altProxyMatch := jsMatch altProxyPat output
        match tokenMatch with
        | none => .exited "failed to extract token address"
        | some tokenAddress =>
          let proxyAddress :=
            match proxyMatch with
            | some p => some p
            | none => altProxyMatch
          match proxyAddress with
          | none => .exited "failed to extract proxy address"
          | some proxy =>
            .deployed { d with
              contracts := some { tokenAddress := some tokenAddress,
                                  proxyAddress := some proxy,
                                  vestingAddress := vestingMatch },
              tokenAddress := some tokenAddress,
              proxyAddress := some proxy,
              vestingAddress :=
                if vestingMatch.isSome then vestingMatch
                else d.vestingAddress,
              state := some ({ d.flags with contractsDeployed := true }) }) := by
    rcases hb : env.balanceRes with _ | b
    · simp [deployContracts, hb]
    · cases b
      · exact absurd hb hbal
      · simp [deployContracts, hb]
  rw [hshape, hok]
  refine ⟨?_, ?_, ?_⟩
  · intro ht
    simp [ht]
  · intro t ht hp ha
    simp [ht, hp, ha]
  · intro t p ht hp
    rcases hp with hp | ⟨hp, ha⟩
    · simp [ht, hp]
    · simp [ht, hp, ha]

/-- Concrete hardhat output used for the C3 witness. -/
def c3Output : String :=
  "Token Address: 0xaAaaaaaaaaaaaaaaaaaaaaaaaaaaaaaaaaaaaaa1" ++
  "\nProxy deployed to: 0xbbbbbbbbbbbbbbbbbbbbbbbbbbbbbbbbbbbbbbb2"

/-- Witness for C3: both addresses are extracted from a concrete console
output (the proxy via the fallback `Proxy deployed to:` pattern) and
recorded in both formats. -/
theorem c3_deployContracts_regex_extraction_witness :
    deployContracts {} { hardhat := .ok c3Output } = .deployed
      { contracts := some
          { tokenAddress := some "0xaAaaaaaaaaaaaaaaaaaaaaaaaaaaaaaaaaaaaaa1",
            proxyAddress := some "0xbbbbbbbbbbbbbbbbbbbbbbbbbbbbbbbbbbbbbbb2",
            vestingAddress := none },
        tokenAddress := some "0xaAaaaaaaaaaaaaaaaaaaaaaaaaaaaaaaaaaaaaa1",
        proxyAddress := some "0xbbbbbbbbbbbbbbbbbbbbbbbbbbbbbbbbbbbbbbb2",
        state := some ({ ({} : Deployment).flags with contractsDeployed := true }) } := by
  have h := (c3_deployContracts_regex_extraction {} { hardhat := .ok c3Output }
    c3Output rfl (by simp)).2.2
    "0xaAaaaaaaaaaaaaaaaaaaaaaaaaaaaaaaaaaaaaa1"
    "0xbbbbbbbbbbbbbbbbbbbbbbbbbbbbbbbbbbbbbbb2"
    rfl (Or.inr ⟨rfl, rfl⟩)
  simpa using h

/-! ## `useContributionFlow.ts` — the five-step contribution wizard -/

/-- Outcome of an external call whose result the flow null-checks: the
call can throw, return a falsy value, or return a value. -/
inductive CallRes (α : Type)
  | throws (msg : String) | null | ok (v : α)
  deriving Repr

/-- `UploadResponse` from the drive service. -/
structure UploadResponse where
  downloadUrl : String := ""
  vanaFileId : String := ""
  deriving Repr

/-- The transaction receipt returned by `addFile`. -/
structure TxReceipt where
  transactionHash : String := ""
  blockNumber : Option Nat := none
  deriving Repr

/-- The proof result returned by `requestContributionProof`. -/
structure ProofResult where
  jobId : Nat := 0
  fileId : Nat := 0
  proofData : String := ""
  deriving Repr

/-- The outcomes of the wizard's external calls in one run.  Calls whose
results are not null-checked (`getDlpPublicKey`/encryption, the TEE proof,
refinement, reward) either throw or return. -/
structure FlowEnv where
  userInfoPresent : Bool := true
  isConnected : Bool := true
  signRes : Except String String := .ok "signature"
  uploadRes : CallRes UploadResponse := .ok {}
  dlpKeyRes : Except String String := .ok "0xkey"
  addFileRes : CallRes TxReceipt := .ok {}
  contractError : Option String := none
  extractRes : Except String Nat := .ok 1
  teeRes : Except String ProofResult := .ok {}
  refineRes : Except String Unit := .ok ()
  rewardRes : Except String (Option String) := .ok none

/-- The hook state the wizard mutates. -/
structure FlowState where
  isSuccess : Bool := false
  error : Option String := none
  currentStep : Nat := 0
  completedSteps : List Nat := []
  shareUrl : String := ""
  deriving Repr

/-- Observable step events: `setCurrentStep(k)` and `markStepComplete(k)`. -/
inductive FlowEv
  | started (n : Nat) | completedEv (n : Nat)
  deriving Repr, DecidableEq

/-- `handleContributeData`: the five-step wizard run from the freshly
initialised hook state.  Step 0 (message signing) is caught inside its own
step; upload/addFile failures are null-checked; other step failures
propagate to the surrounding try/catch (steps 1–2: the outer catch; steps
3–5: the catch inside `executeProofAndRewardSteps`, after which
`setIsSuccess(true)` still runs). -/
def handleContributeData (env : FlowEnv) : FlowState × List FlowEv :=
  if !env.userInfoPresent then
    ({ error := some "Unable to access user information. Please try again." }, [])
  else
    match env.signRes with
    | .error _ =>
      ({ error := some "Failed to sign the message. Please try again." }, [])
    | .ok _ =>
      match env.uploadRes with
      | .throws m => ({ error := some m, currentStep := 1 }, [.started 1])
      | .null =>
        ({ error := some "Failed to upload data to Google Drive",
           currentStep := 1 }, [.started 1])
      | .ok up =>
        let st1 : FlowState :=
          { currentStep := 1, completedSteps := [1], shareUrl := up.downloadUrl }
        let tr1 : List FlowEv := [.started 1, .completedEv 1]
        if !env.isConnected then
          ({ st1 with
             error := some "Wallet connection required to register on blockchain" },
           tr1)
        else
          let st2 := { st1 with currentStep := 2 }
          let tr2 := tr1 ++ [.started 2]
          match env.dlpKeyRes with
          | .error m => ({ st2 with error := some m }, tr2)
          | .ok _ =>
            match env.addFileRes with
            | .throws m => ({ st2 with error := some m }, tr2)
            | .null =>
              let msg :=
                match env.contractError with
                | some ce => "Contract error: " ++ ce
                | none => "Failed to add file to blockchain"
              ({ st2 with error := some msg }, tr2)
            | .ok _ =>
              match env.extractRes with
              | .error m => ({ st2 with error := some m }, tr2)
              | .ok fileId =>
                let st3 := { st2 with completedSteps := st2.completedSteps ++ [2] }
                let tr3 := tr2 ++ [.completedEv 2]
                if fileId = 0 then (st3, tr3)
                else
                  let st4 := { st3 with currentStep := 3 }
                  let tr4 := tr3 ++ [.started 3]
                  match env.teeRes with
                  | .error m =>
                    ({ st4 with error := some m, isSuccess := true }, tr4)
                  | .ok _ =>
                    let st5 := { st4 with
                      completedSteps := st4.completedSteps ++ [3] }
                    let tr5 := tr4 ++ [.completedEv 3]
                    let st6 := { st5 with currentStep := 4 }
                    let tr6 := tr5 ++ [.started 4]
                    match env.refineRes with
                    | .error m =>
                      ({ st6 with error := some m, isSuccess := true }, tr6)
                    | .ok _ =>
                      let st7 := { st6 with
                        completedSteps := st6.completedSteps ++ [4] }
                      let tr7 := tr6 ++ [.completedEv 4]
                      let st8 := { st7 with currentStep := 5 }
                      let tr8 := tr7 ++ [.started 5]
                      match env.rewardRes with
                      | .error m =>
                        ({ st8 with error := some m, isSuccess := true }, tr8)
                      | .ok _ =>
                        ({ st8 with
                           completedSteps := st8.completedSteps ++ [5],
                           isSuccess := true },
                         tr8 ++ [.completedEv 5])

/-- The steps whose `setCurrentStep` ran, in order. -/
def startedSteps (tr : List FlowEv) : List Nat :=
  tr.filterMap fun e => match e with | .started n => some n | _ => none

/-- Did step `k`'s external calls all succeed in this environment? -/
def stepOkB (env : FlowEnv) : Nat → Bool
  | 1 => match env.uploadRes with | .ok _ => true | _ => false
  | 2 =>
    (match env.dlpKeyRes with | .ok _ => true | _ => false) &&
    (match env.addFileRes with | .ok _ => true | _ => false) &&
    (match env.extractRes with | .ok _ => true | _ => false)
  | 3 => match env.teeRes with | .ok _ => true | _ => false
  | 4 => match env.refineRes with | .ok _ => true | _ => false
  | 5 => match env.rewardRes with | .ok _ => true | _ => false
  | _ => false

/-- Did one of step `k`'s external calls throw or return null? -/
def stepFailB (env : FlowEnv) : Nat → Bool
  | 1 => match env.uploadRes with | .ok _ => false | _ => true
  | 2 =>
    (match env.dlpKeyRes with | .error _ => true | _ => false) ||
    (match env.addFileRes with | .ok _ => false | _ => true) ||
    (match env.extractRes with | .error _ => true | _ => false)
  | 3 => match env.teeRes with | .error _ => true | _ => false
  | 4 => match env.refineRes with | .error _ => true | _ => false
  | 5 => match env.rewardRes with | .error _ => true | _ => false
  | _ => false


/-! ### Claim C4 -/

/-- **C4**: the contribution flow is a fixed five-step wizard executed
strictly sequentially after the preliminary signing step: the started and
completed steps always form in-order prefixes of `[1,2,3,4,5]`, step `k+1`
only ever starts after step `k` was marked complete, `completedSteps` only
contains steps whose external calls all succeeded, and a step whose
external call throws or returns null sets an error, is not marked
complete, and no later step starts. -/
theorem c4_wizard_strictly_sequential (env : FlowEnv) :
    ((handleContributeData env).1.completedSteps =
      List.take (handleContributeData env).1.completedSteps.length
        [1, 2, 3, 4, 5]) ∧
    (startedSteps (handleContributeData env).2 =
      List.take (startedSteps (handleContributeData env).2).length
        [1, 2, 3, 4, 5]) ∧
    (∀ k ∈ ([1, 2, 3, 4] : List Nat),
      FlowEv.started (k + 1) ∈ (handleContributeData env).2 →
      FlowEv.completedEv k ∈ (handleContributeData env).2) ∧
    (∀ k ∈ (handleContributeData env).1.completedSteps,
      stepOkB env k = true) ∧
    (∀ k ∈ ([1, 2, 3, 4, 5] : List Nat),
      FlowEv.started k ∈ (handleContributeData env).2 →
      stepFailB env k = true →
      (handleContributeData env).1.error.isSome = true ∧
      k ∉ (handleContributeData env).1.completedSteps ∧
      ∀ j ∈ startedSteps (handleContributeData env).2, j ≤ k) := by
  rcases env with
    ⟨ui, conn, sign, upload, dlpKey, addFile, cErr, extract, tee, refi, reward⟩
  cases ui with
  | false =>
    refine ⟨?_, ?_, ?_, ?_, ?_⟩ <;>
      simp [handleContributeData, startedSteps, stepOkB, stepFailB]
  | true =>
    cases sign with
    | error m =>
      refine ⟨?_, ?_, ?_, ?_, ?_⟩ <;>
        simp [handleContributeData, startedSteps, stepOkB, stepFailB]
    | ok s =>
      cases upload with
      | throws m =>
        refine ⟨?_, ?_, ?_, ?_, ?_⟩ <;>
          simp [handleContributeData, startedSteps, stepOkB, stepFailB]
      | null =>
        refine ⟨?_, ?_, ?_, ?_, ?_⟩ <;>
          simp [handleContributeData, startedSteps, stepOkB, stepFailB]
      | ok up =>
        cases conn with
        | false =>
          refine ⟨?_, ?_, ?_, ?_, ?_⟩ <;>
            simp [handleContributeData, startedSteps, stepOkB, stepFailB]
        | true =>
          cases dlpKey with
          | error m =>
            refine ⟨?_, ?_, ?_, ?_, ?_⟩ <;>
              simp [handleContributeData, startedSteps, stepOkB, stepFailB]
          | ok kk =>
            cases addFile with
            | throws m =>
              refine ⟨?_, ?_, ?_, ?_, ?_⟩ <;>
                simp [handleContributeData, startedSteps, stepOkB, stepFailB]
            | null =>
              refine ⟨?_, ?_, ?_, ?_, ?_⟩ <;>
                simp [handleContributeData, startedSteps, stepOkB, stepFailB]
            | ok rc =>
              cases extract with
              | error m =>
                refine ⟨?_, ?_, ?_, ?_, ?_⟩ <;>
                  simp [handleContributeData, startedSteps, stepOkB, stepFailB]
              | ok n =>
                cases n with
                | zero =>
                  refine ⟨?_, ?_, ?_, ?_, ?_⟩ <;>
                    simp [handleContributeData, startedSteps, stepOkB, stepFailB]
                | succ n' =>
                  cases tee with
                  | error m =>
                    refine ⟨?_, ?_, ?_, ?_, ?_⟩ <;>
                      simp [handleContributeData, startedSteps, stepOkB,
                        stepFailB]
                  | ok pr =>
                    cases refi with
                    | error m =>
                      refine ⟨?_, ?_, ?_, ?_, ?_⟩ <;>
                        simp [handleContributeData, startedSteps, stepOkB,
                          stepFailB]
                    | ok uu =>
                      cases reward with
                      | error m =>
                        refine ⟨?_, ?_, ?_, ?_, ?_⟩ <;>
                          simp [handleContributeData, startedSteps, stepOkB,
                            stepFailB]
                      | ok v =>
                        refine ⟨?_, ?_, ?_, ?_, ?_⟩ <;>
                          simp [handleContributeData, startedSteps, stepOkB,
                            stepFailB]

/-- Witness for C4: in the all-successful environment every step completes
in order, and step 3's calls succeeded. -/
theorem c4_wizard_strictly_sequential_witness :
    (handleContributeData {}).1.completedSteps =
      List.take (handleContributeData {}).1.completedSteps.length
        [1, 2, 3, 4, 5] ∧ stepOkB {} 3 = true :=
  ⟨(c4_wizard_strictly_sequential {}).1,
   (c4_wizard_strictly_sequential {}).2.2.2.1 3 (by simp [handleContributeData])⟩

/-! ## `ui/lib/crypto/utils.ts` -/

/-- The hard-coded 16-byte initialization vector. -/
def fixedIV : List Nat :=
  [0x01, 0x02, 0x03, 0x04, 0x05, 0x06, 0x07, 0x08, 0x09, 0x0a, 0x0b, 0x0c,
   0x0d, 0x0e, 0x0f, 0x10]

/-- The hard-coded 32-byte ephemeral private key. -/
def fixedEphemeralKey : List Nat :=
  [0x11, 0x22, 0x33, 0x44, 0x55, 0x66, 0x77, 0x88, 0x99, 0xaa, 0xbb, 0xcc,
   0xdd, 0xee, 0xff, 0x00, 0x10, 0x20, 0x30, 0x40, 0x50, 0x60, 0x70, 0x80,
   0x90, 0xa0, 0xb0, 0xc0, 0xd0, 0xe0, 0xf0, 0x00]

/-- The module-level mutable cells `generatedIV` / `generatedEphemeralKey`. -/
structure CryptoModuleState where
  generatedIV : Option (List Nat) := none
  generatedEphemeralKey : Option (List Nat) := none
  deriving Repr, DecidableEq

/-- The record `getEncryptionParameters` returns. -/
structure EncryptionParameters where
  iv : List Nat
  ephemeralKey : List Nat
  ivHex : String
  ephemeralKeyHex : String
  deriving Repr, DecidableEq

/-- One lowercase hex digit. -/
def hexDigitChar (n : Nat) : Char :=
  if n < 10 then Char.ofNat (48 + n) else Char.ofNat (87 + n)

/-- `Buffer.prototype.toString('hex')`. -/
def bytesToHex (bs : List Nat) : String :=
  String.join (bs.map fun b =>
    String.mk [hexDigitChar (b / 16 % 16), hexDigitChar (b % 16)])

/-- `getEncryptionParameters()`: populate the module cells with the fixed
constants when unset (a `Uint8Array` is always truthy, so `!generatedIV`
means the cell is still null), then return their contents. -/
def getEncryptionParameters (st : CryptoModuleState) :
    EncryptionParameters × CryptoModuleState :=
  let st' :=
    if st.generatedIV.isNone || st.generatedEphemeralKey.isNone then
      { generatedIV := some fixedIV,
        generatedEphemeralKey := some fixedEphemeralKey }
    else st
  ({ iv := st'.generatedIV.getD [],
     ephemeralKey := st'.generatedEphemeralKey.getD [],
     ivHex := bytesToHex (st'.generatedIV.getD []),
     ephemeralKeyHex := bytesToHex (st'.generatedEphemeralKey.getD []) },
   st')

/-- Value of one hex character, (`Buffer.from(_, 'hex')` semantics). -/
def hexVal (c : Char) : Option Nat :=
  if '0' ≤ c && c ≤ '9' then some (c.toNat - 48)
  else if 'a' ≤ c && c ≤ 'f' then some (c.toNat - 87)
  else if 'A' ≤ c && c ≤ 'F' then some (c.toNat - 55)
  else none

/-- `Buffer.from(hex, 'hex')`: decode pairs, stopping at the first invalid
pair (or dangling half-pair). -/
def hexDecode : List Char → List Nat
  | c1 :: c2 :: rest =>
    match hexVal c1, hexVal c2 with
    | some h, some l => (16 * h + l) :: hexDecode rest
    | _, _ => []
  | _ => []

/-- The four buffers `eccrypto.encrypt` resolves with. -/
structure EccEncrypted where
  iv : List Nat
  ephemPublicKey : List Nat
  ciphertext : List Nat
  mac : List Nat

/-- The `eccrypto.encrypt` primitive as a function of the recipient key,
the plaintext bytes, and the explicitly passed iv and ephemeral private
key.  In eccrypto these two options are the only sources of randomness, so
modelling the library call as a function is exactly the determinism
assumption the fixed parameters buy. -/
def EccEncrypt : Type :=
  List Nat → List Nat → List Nat → List Nat → EccEncrypted

/-- `encryptWithWalletPublicKey(data, publicKey)`: fetch the (fixed)
parameters, strip an optional `0x`, hex-decode the key, prepend `0x04`
when it is a raw 64-byte key, encrypt, and hex-encode
`iv ‖ ephemPublicKey ‖ ciphertext ‖ mac`. -/
def encryptWithWalletPublicKey (enc : EccEncrypt) (st : CryptoModuleState)
    (data publicKey : String) : String × CryptoModuleState :=
  let p := getEncryptionParameters st
  let stripped :=
    if publicKey.startsWith "0x" then publicKey.toList.drop 2
    else publicKey.toList
  let publicKeyBytes := hexDecode stripped
  let uncompressedKey :=
    if publicKeyBytes.length = 64 then 4 :: publicKeyBytes
    else publicKeyBytes
  let dataBytes := data.toUTF8.toList.map (fun b => b.toNat)
  let e := enc uncompressedKey dataBytes p.1.iv p.1.ephemeralKey
  (bytesToHex (e.iv ++ e.ephemPublicKey ++ e.ciphertext ++ e.mac), p.2)

/-- The module states that actually occur: the initial one, and the one
after the cells were populated (the only write stores the constants). -/
def CryptoReachable (st : CryptoModuleState) : Prop :=
  st = {} ∨
  st = { generatedIV := some fixedIV,
         generatedEphemeralKey := some fixedEphemeralKey }

/-! ### Claim C10 -/

/-- **C10**: `getEncryptionParameters` returns the same hard-coded 16-byte
IV and 32-byte ephemeral private key on every call (in every reachable
module state), so `encryptWithWalletPublicKey` is fully deterministic: for
every data string and public key, two invocations — whatever each one's
module state — produce byte-for-byte identical ciphertext hex output. -/
theorem c10_encryption_parameters_fixed_and_deterministic :
    (∀ st, CryptoReachable st →
      (getEncryptionParameters st).1.iv = fixedIV ∧
      (getEncryptionParameters st).1.ephemeralKey = fixedEphemeralKey ∧
      CryptoReachable (getEncryptionParameters st).2) ∧
    fixedIV.length = 16 ∧
    fixedEphemeralKey.length = 32 ∧
    (∀ (enc : EccEncrypt) (st1 st2 : CryptoModuleState) (data publicKey : String),
      CryptoReachable st1 → CryptoReachable st2 →
      (encryptWithWalletPublicKey enc st1 data publicKey).1 =
      (encryptWithWalletPublicKey enc st2 data publicKey).1) := by
  have hparams : ∀ st, CryptoReachable st →
      (getEncryptionParameters st).1.iv = fixedIV ∧
      (getEncryptionParameters st).1.ephemeralKey = fixedEphemeralKey ∧
      CryptoReachable (getEncryptionParameters st).2 := by
    intro st hst
    rcases hst with h | h <;> subst h <;>
      exact ⟨rfl, rfl, Or.inr rfl⟩
  refine ⟨hparams, rfl, rfl, ?_⟩
  intro enc st1 st2 data publicKey h1 h2
  obtain ⟨hiv1, hek1, _⟩ := hparams st1 h1
  obtain ⟨hiv2, hek2, _⟩ := hparams st2 h2
  simp only [encryptWithWalletPublicKey]
  rw [hiv1, hiv2, hek1, hek2]

/-- Witness for C10: the first call (fresh module state) and a later call
(populated state) produce identical output for a concrete encryptor. -/
theorem c10_encryption_parameters_fixed_and_deterministic_witness :
    (encryptWithWalletPublicKey (fun k d iv ek => ⟨iv, k, d, ek⟩) {}
      "data" "0xab").1 =
    (encryptWithWalletPublicKey (fun k d iv ek => ⟨iv, k, d, ek⟩)
      { generatedIV := some fixedIV,
        generatedEphemeralKey := some fixedEphemeralKey }
      "data" "0xab").1 :=
  c10_encryption_parameters_fixed_and_deterministic.2.2.2
    (fun k d iv ek => ⟨iv, k, d, ek⟩) {}
    { generatedIV := some fixedIV,
      generatedEphemeralKey := some fixedEphemeralKey }
    "data" "0xab" (Or.inl rfl) (Or.inr rfl)
